import Mathlib

/-!
Verification development for a static software-metrics engine written in
JavaScript.  The engine lives twice in the repository: once in `src/tool.js`
and once in an unnamed near-duplicate entry point (`src/unnamed/part_000`).
Both copies contain the same six metric functions (`locMetrics`, `halstead`,
`cyclomatic`, `infoFlow`, `liveVariableStats`, `dispersion`), an aggregating
main loop, and a Maintainability-Index derivation (with opposite sign
conventions in the two copies).

The engine consumes syntax trees produced by the `acorn` parser and walks
them with `acorn-walk`'s `simple` / `ancestor` walkers.  Both walkers share
the same dispatch loop: for each node the *base* visitor first recurses into
the node's children, and only afterwards the user-supplied visitor for the
node's type is invoked.  Visitor callbacks therefore fire in post-order
(children before their parent), which is essential for the stateful
information-flow analyzer.  Identifiers occurring in *pattern* position
(function names, parameters, variable-declarator ids, assignment targets)
are dispatched by the base walker under the `Pattern`/`VariablePattern`
override and never reach an `Identifier` visitor.

We embed the fragment of the ECMAScript AST that the metric visitors can
observe (expressions, statements, function declarations/expressions/arrows,
calls, branches, loops, variable declarations; class bodies and computed
members are outside the embedded fragment).  The walk is embedded as a
function producing the post-order list of visitor events; each metric is the
fold of its visitor bodies over that list, exactly mirroring the JS code.

JS numbers are modelled as `ℕ`/`ℚ` where the code only produces such values
and as `ℝ` for the logarithm/square-root based derivations.  The one place
where the code can divide zero by zero (`dispersion` on an empty file list,
where IEEE arithmetic yields `NaN`) is modelled by an explicit `Option`.
-/

/-! ## The embedded syntax-tree fragment -/

mutual

/-- Expression nodes of the embedded AST fragment (acorn node shapes).
`start` is the source offset acorn stores on every node; we only keep it
where the engine reads it (arrow functions). -/
inductive Expr where
  | ident (name : String)
  | lit (value : String)
  | binary (op : String) (left right : Expr)
  | logical (op : String) (left right : Expr)
  | unary (op : String) (arg : Expr)
  | assign (op : String) (target : String) (rhs : Expr)
  | update (op : String) (arg : Expr)
  | cond (test cons alt : Expr)
  | call (callee : Expr) (args : List Expr)
  | member (obj : Expr) (prop : String)
  | funcExpr (id : Option String) (params : List String) (body : List Stmt)
  | arrow (params : List String) (body : List Stmt) (start : Nat)

/-- Statement nodes of the embedded AST fragment. `varDecl` carries the list
of its `VariableDeclarator`s as (bound name, optional initializer). -/
inductive Stmt where
  | exprStmt (e : Expr)
  | varDecl (decls : List (String × Option Expr))
  | ifStmt (test : Expr) (cons : Stmt) (alt : Option Stmt)
  | whileStmt (test : Expr) (body : Stmt)
  | forStmt (finit ftest fupdate : Option Expr) (body : Stmt)
  | block (body : List Stmt)
  | ret (arg : Option Expr)
  | funcDecl (id : Option String) (params : List String) (body : List Stmt)

end

/-- A `Program` node is a list of top-level statements. -/
abbrev Program := List Stmt

/-- The visitor events observed by the metric functions: one constructor per
node type for which some visitor is installed somewhere in the engine.
Nodes of other types have no installed visitor and therefore only contribute
their children's events. -/
inductive Event where
  | binaryOp (op : String)
  | logicalOp (op : String)
  | unaryOp (op : String)
  | assignOp (op : String)
  | updateOp (op : String)
  | identifier (name : String)
  | literal (value : String)
  | ifStmt
  | forStmt
  | whileStmt
  | conditional
  | callExpr (calleeName : Option String)
  | funcDecl (id : Option String)
  | funcExpr (id : Option String)
  | arrowFn (start : Nat)
  | varDeclarator (idName : String)

/-- `node.callee.name` of a call expression: only `Identifier` nodes carry a
`name` field, so the callee name is resolvable exactly for simple
(non-member, non-computed) callees. -/
def calleeNameOf : Expr → Option String
  | .ident n => some n
  | _ => none

mutual

/-- Post-order visitor-event sequence of an expression, following
`acorn-walk`'s base visitor: children are traversed first (in the base
visitor's field order), then the node's own visitor fires.  Pattern-position
identifiers (assignment targets, function ids, parameters) are dispatched as
`VariablePattern` by the base walker and produce no `identifier` event;
non-computed member properties are not traversed at all. -/
def exprEvents : Expr → List Event
  | .ident name => [.identifier name]
  | .lit value => [.literal value]
  | .binary op l r => exprEvents l ++ exprEvents r ++ [.binaryOp op]
  | .logical op l r => exprEvents l ++ exprEvents r ++ [.logicalOp op]
  | .unary op a => exprEvents a ++ [.unaryOp op]
  | .assign op _target rhs => exprEvents rhs ++ [.assignOp op]
  | .update op a => exprEvents a ++ [.updateOp op]
  | .cond t c a => exprEvents t ++ exprEvents c ++ exprEvents a ++ [.conditional]
  | .call callee args =>
      exprEvents callee ++ exprListEvents args ++ [.callExpr (calleeNameOf callee)]
  | .member obj _prop => exprEvents obj
  | .funcExpr id _params body => stmtListEvents body ++ [.funcExpr id]
  | .arrow _params body start => stmtListEvents body ++ [.arrowFn start]

/-- Events of a list of argument expressions, in order. -/
def exprListEvents : List Expr → List Event
  | [] => []
  | e :: es => exprEvents e ++ exprListEvents es

/-- Events of an optional expression (absent child: no events). -/
def optExprEvents : Option Expr → List Event
  | none => []
  | some e => exprEvents e

/-- Post-order visitor-event sequence of a statement. -/
def stmtEvents : Stmt → List Event
  | .exprStmt e => exprEvents e
  | .varDecl decls => varDeclListEvents decls
  | .ifStmt t c a => exprEvents t ++ stmtEvents c ++ optStmtEvents a ++ [.ifStmt]
  | .whileStmt t b => exprEvents t ++ stmtEvents b ++ [.whileStmt]
  | .forStmt i t u b =>
      optExprEvents i ++ optExprEvents t ++ optExprEvents u ++ stmtEvents b ++ [.forStmt]
  | .block body => stmtListEvents body
  | .ret a => optExprEvents a
  | .funcDecl id _params body => stmtListEvents body ++ [.funcDecl id]

/-- Events of an optional statement. -/
def optStmtEvents : Option Stmt → List Event
  | none => []
  | some s => stmtEvents s

/-- Events of a statement list, in order. -/
def stmtListEvents : List Stmt → List Event
  | [] => []
  | s :: ss => stmtEvents s ++ stmtListEvents ss

/-- Events of the declarators of one `VariableDeclaration`: for each
declarator the initializer's events come first (the bound name is a pattern
and yields no `identifier` event), then the `VariableDeclarator` visitor
fires. -/
def varDeclListEvents : List (String × Option Expr) → List Event
  | [] => []
  | (idName, finit) :: rest =>
      optExprEvents finit ++ [.varDeclarator idName] ++ varDeclListEvents rest

end

/-- Post-order visitor-event sequence of a whole program (`Program` nodes
have no installed visitor). -/
def programEvents (p : Program) : List Event :=
  stmtListEvents p

/-! ## Shared result record types -/

/-- Result of `locMetrics`: the object `{ total, blank, comment, code }`. -/
structure LineCounts where
  total : Nat
  blank : Nat
  comment : Nat
  code : Nat
deriving Repr, DecidableEq

/-- Accumulator of the Halstead walk: the two JS `Set`s and the two totals. -/
structure HalsteadAcc where
  operators : Finset String
  operands : Finset String
  N1 : Nat
  N2 : Nat

/-- Result object of `halstead`. -/
structure HalsteadResult where
  n1 : Nat
  n2 : Nat
  N1 : Nat
  N2 : Nat
  n : Nat
  N : Nat
  volume : ℝ
  difficulty : ℝ
  effort : ℝ
  time : ℝ
  bugs : ℝ

/-- State of the information-flow walk.  The JS `Map` from function name to
`{ fanIn, fanOut }` is modelled by its key list in insertion order plus the
two set-valued fields as functions (`∅` for keys that were never set, which
is where the JS map would have no entry). -/
structure IFState where
  names : List String
  fanIn : String → Finset String
  fanOut : String → Finset String
  currentFunction : String

/-- Result object of `infoFlow` (the returned summary record). -/
structure IFSummary where
  functionCount : Nat
  totalFanIn : Nat
  totalFanOut : Nat
  avgFanIn : ℚ
  avgFanOut : ℚ
  totalInfoFlow : Nat
  grandTotal : Nat
deriving Repr, DecidableEq

/-- Result object of `liveVariableStats`. -/
structure LiveVarsResult where
  declared : Nat
  live : Nat
  loc : Nat
deriving Repr, DecidableEq

/-- The finite part of `dispersion`'s result object (`mean`, `variance`);
`stdDev` is their square root and is derived separately over `ℝ`. -/
structure DispersionResult where
  mean : ℚ
  variance : ℚ
deriving Repr, DecidableEq

/-! ## The metric engine of `src/tool.js` -/

namespace ToolJs

/-- `locMetrics` of `src/tool.js`: split on newlines; a line is blank when
its trim is empty, else a comment when its trim starts with a comment
marker; code lines are what remains of the total. -/
def locMetrics (code : String) : LineCounts :=
  let lines := code.splitOn "\n"
  let blank := lines.countP (fun l => l.trim == "")
  let comment := lines.countP (fun l =>
    !(l.trim == "") &&
      (l.trim.startsWith "//" || l.trim.startsWith "/*" || l.trim.startsWith "*"))
  { total := lines.length
    blank := blank
    comment := comment
    code := lines.length - blank - comment }

/-- One visitor step of the Halstead walk of `src/tool.js`. -/
def halsteadStep (acc : HalsteadAcc) : Event → HalsteadAcc
  | .binaryOp op => { acc with operators := insert op acc.operators, N1 := acc.N1 + 1 }
  | .logicalOp op => { acc with operators := insert op acc.operators, N1 := acc.N1 + 1 }
  | .unaryOp op => { acc with operators := insert op acc.operators, N1 := acc.N1 + 1 }
  | .assignOp op => { acc with operators := insert op acc.operators, N1 := acc.N1 + 1 }
  | .updateOp op => { acc with operators := insert op acc.operators, N1 := acc.N1 + 1 }
  | .identifier name => { acc with operands := insert name acc.operands, N2 := acc.N2 + 1 }
  | .literal value => { acc with operands := insert value acc.operands, N2 := acc.N2 + 1 }
  | _ => acc

/-- The tallies of the Halstead walk over a program. -/
def halsteadAcc (prog : Program) : HalsteadAcc :=
  (programEvents prog).foldl halsteadStep ⟨∅, ∅, 0, 0⟩

/-- `halstead` of `src/tool.js`: the walk plus the derived quantities.
`n ? N * Math.log2(n) : 0` and `n2 ? (n1 / 2) * (N2 / n2) : 0` are the
source's guards against a zero vocabulary / zero operand set. -/
noncomputable def halstead (prog : Program) : HalsteadResult :=
  let acc := halsteadAcc prog
  let n1 := acc.operators.card
  let n2 := acc.operands.card
  let n := n1 + n2
  let N := acc.N1 + acc.N2
  let volume : ℝ := if n = 0 then 0 else (N : ℝ) * Real.logb 2 (n : ℝ)
  let difficulty : ℝ := if n2 = 0 then 0 else ((n1 : ℝ) / 2) * ((acc.N2 : ℝ) / (n2 : ℝ))
  { n1 := n1, n2 := n2, N1 := acc.N1, N2 := acc.N2, n := n, N := N
    volume := volume
    difficulty := difficulty
    effort := volume * difficulty
    time := volume * difficulty / 18
    bugs := volume / 3000 }

/-- One visitor step of the cyclomatic-complexity walk of `src/tool.js`:
`IfStatement`, `ForStatement`, `WhileStatement`, `ConditionalExpression`
increment unconditionally; `LogicalExpression` increments only for the
operators `&&` and `||`. -/
def cyclomaticStep (cc : Nat) : Event → Nat
  | .ifStmt => cc + 1
  | .forStmt => cc + 1
  | .whileStmt => cc + 1
  | .logicalOp op => if op = "&&" ∨ op = "||" then cc + 1 else cc
  | .conditional => cc + 1
  | _ => cc

/-- `cyclomatic` of `src/tool.js`: counter starts at 1. -/
def cyclomatic (prog : Program) : Nat :=
  (programEvents prog).foldl cyclomaticStep 1

/-- `registerFunction` of `src/tool.js`'s `infoFlow`: insert the name with
fresh empty fan-in/fan-out sets unless already present. -/
def registerFunction (name : String) (st : IFState) : IFState :=
  if name ∈ st.names then st
  else
    { st with
      names := st.names ++ [name]
      fanIn := fun k => if k = name then ∅ else st.fanIn k
      fanOut := fun k => if k = name then ∅ else st.fanOut k }

/-- One visitor step of the information-flow walk of `src/tool.js`.  Because
`acorn-walk` fires visitors in post-order, the `currentFunction` marker is
reassigned only after a function's entire body has been traversed. -/
def infoFlowStep (st : IFState) : Event → IFState
  | .funcDecl id =>
      let name := id.getD "anonymous"
      { registerFunction name st with currentFunction := name }
  | .funcExpr id =>
      let name := id.getD "anonymous_expr"
      { registerFunction name st with currentFunction := name }
  | .arrowFn start =>
      let name := "arrow@" ++ toString start
      { registerFunction name st with currentFunction := name }
  | .callExpr none => st
  | .callExpr (some callee) =>
      let st1 := registerFunction callee st
      { st1 with
        fanOut := fun k =>
          if k = st1.currentFunction then insert callee (st1.fanOut st1.currentFunction)
          else st1.fanOut k
        fanIn := fun k =>
          if k = callee then insert st1.currentFunction (st1.fanIn callee)
          else st1.fanIn k }
  | _ => st

/-- Initial information-flow state: `currentFunction = "GLOBAL"`, with the
GLOBAL pseudo-function registered up front. -/
def initIFState : IFState :=
  registerFunction "GLOBAL" ⟨[], fun _ => ∅, fun _ => ∅, "GLOBAL"⟩

/-- The information-flow state after walking a whole program. -/
def infoFlowState (prog : Program) : IFState :=
  (programEvents prog).foldl infoFlowStep initIFState

/-- `infoFlow` of `src/tool.js`: walk, then fold over the map's entries
skipping `GLOBAL`, then the derived averages (guarded by
`functionCount ? _ : 0`) and the grand total. -/
def infoFlow (prog : Program) : IFSummary :=
  let st := infoFlowState prog
  let entries := st.names.filter (fun n => n ≠ "GLOBAL")
  let functionCount := entries.length
  let totalFanIn := (entries.map (fun n => (st.fanIn n).card)).sum
  let totalFanOut := (entries.map (fun n => (st.fanOut n).card)).sum
  let totalInfoFlow := (entries.map (fun n => (st.fanIn n).card * (st.fanOut n).card)).sum
  { functionCount := functionCount
    totalFanIn := totalFanIn
    totalFanOut := totalFanOut
    avgFanIn := if functionCount = 0 then 0 else (totalFanIn : ℚ) / (functionCount : ℚ)
    avgFanOut := if functionCount = 0 then 0 else (totalFanOut : ℚ) / (functionCount : ℚ)
    totalInfoFlow := totalInfoFlow
    grandTotal := totalFanIn + totalFanOut + totalInfoFlow }

/-- One visitor step of the declared/used-variable walk of `src/tool.js`. -/
def liveVarsStep (acc : Finset String × Finset String) : Event → Finset String × Finset String
  | .varDeclarator idName => (insert idName acc.1, acc.2)
  | .identifier name => (acc.1, insert name acc.2)
  | _ => acc

/-- The (declared, used) sets after walking a whole program. -/
def liveVarsAcc (prog : Program) : Finset String × Finset String :=
  (programEvents prog).foldl liveVarsStep (∅, ∅)

/-- `liveVariableStats` of `src/tool.js`: `live` is the number of declared
names that also occur in the used set. -/
def liveVariableStats (prog : Program) (loc : Nat) : LiveVarsResult :=
  let acc := liveVarsAcc prog
  { declared := acc.1.card
    live := (acc.1.filter (fun v => v ∈ acc.2)).card
    loc := loc }

/-- `dispersion` of `src/tool.js`.  On an empty array the JS code computes
`0 / 0 = NaN` for the mean, hence `NaN` variance and `NaN` standard
deviation; the `NaN`-valued result is modelled as `none`. -/
def dispersion (arr : List ℚ) : Option DispersionResult :=
  if arr.length = 0 then none
  else
    let mean := arr.sum / (arr.length : ℚ)
    let variance := (arr.map (fun b => (b - mean) ^ 2)).sum / (arr.length : ℚ)
    some { mean := mean, variance := variance }

/-- `stdDev` field of `dispersion`'s result: `Math.sqrt(variance)`. -/
noncomputable def dispersionStdDev (arr : List ℚ) : Option ℝ :=
  (dispersion arr).map (fun d => Real.sqrt (d.variance : ℝ))

/-- The Maintainability Index of `src/tool.js`:
`171 - 5.2*ln(volume || 1) - 0.23*cc - 16.2*ln(totalLOC || 1)`
(the `x || 1` fallbacks replace a zero by one before the logarithm). -/
noncomputable def MI (volume : ℝ) (ccTotal : Nat) (totalLOC : Nat) : ℝ :=
  171 - 5.2 * Real.log (if volume = 0 then 1 else volume)
      - 0.23 * (ccTotal : ℝ)
      - 16.2 * Real.log (if totalLOC = 0 then 1 else (totalLOC : ℝ))

end ToolJs

/-! ## The metric engine of `src/unnamed/part_000`

The unnamed entry point duplicates the six metric functions verbatim (only
local variable names differ: `register` for `registerFunction`, `live` for
`liveCount`, `callee` for `calleeName`).  They are embedded independently so
that the two copies can be compared. -/

namespace Part0

/-- `locMetrics` of `src/unnamed/part_000`. -/
def locMetrics (code : String) : LineCounts :=
  let lines := code.splitOn "\n"
  let blank := lines.countP (fun l => l.trim == "")
  let comment := lines.countP (fun l =>
    !(l.trim == "") &&
      (l.trim.startsWith "//" || l.trim.startsWith "/*" || l.trim.startsWith "*"))
  { total := lines.length
    blank := blank
    comment := comment
    code := lines.length - blank - comment }

/-- One visitor step of the Halstead walk of `src/unnamed/part_000`. -/
def halsteadStep (acc : HalsteadAcc) : Event → HalsteadAcc
  | .binaryOp op => { acc with operators := insert op acc.operators, N1 := acc.N1 + 1 }
  | .logicalOp op => { acc with operators := insert op acc.operators, N1 := acc.N1 + 1 }
  | .unaryOp op => { acc with operators := insert op acc.operators, N1 := acc.N1 + 1 }
  | .assignOp op => { acc with operators := insert op acc.operators, N1 := acc.N1 + 1 }
  | .updateOp op => { acc with operators := insert op acc.operators, N1 := acc.N1 + 1 }
  | .identifier name => { acc with operands := insert name acc.operands, N2 := acc.N2 + 1 }
  | .literal value => { acc with operands := insert value acc.operands, N2 := acc.N2 + 1 }
  | _ => acc

/-- `halstead` of `src/unnamed/part_000`. -/
noncomputable def halstead (prog : Program) : HalsteadResult :=
  let acc := (programEvents prog).foldl halsteadStep ⟨∅, ∅, 0, 0⟩
  let n1 := acc.operators.card
  let n2 := acc.operands.card
  let n := n1 + n2
  let N := acc.N1 + acc.N2
  let volume : ℝ := if n = 0 then 0 else (N : ℝ) * Real.logb 2 (n : ℝ)
  let difficulty : ℝ := if n2 = 0 then 0 else ((n1 : ℝ) / 2) * ((acc.N2 : ℝ) / (n2 : ℝ))
  { n1 := n1, n2 := n2, N1 := acc.N1, N2 := acc.N2, n := n, N := N
    volume := volume
    difficulty := difficulty
    effort := volume * difficulty
    time := volume * difficulty / 18
    bugs := volume / 3000 }

/-- One visitor step of the cyclomatic walk of `src/unnamed/part_000`. -/
def cyclomaticStep (cc : Nat) : Event → Nat
  | .ifStmt => cc + 1
  | .forStmt => cc + 1
  | .whileStmt => cc + 1
  | .logicalOp op => if op = "&&" ∨ op = "||" then cc + 1 else cc
  | .conditional => cc + 1
  | _ => cc

/-- `cyclomatic` of `src/unnamed/part_000`. -/
def cyclomatic (prog : Program) : Nat :=
  (programEvents prog).foldl cyclomaticStep 1

/-- `register` of `src/unnamed/part_000`'s `infoFlow`. -/
def register (name : String) (st : IFState) : IFState :=
  if name ∈ st.names then st
  else
    { st with
      names := st.names ++ [name]
      fanIn := fun k => if k = name then ∅ else st.fanIn k
      fanOut := fun k => if k = name then ∅ else st.fanOut k }

/-- One visitor step of the information-flow walk of `src/unnamed/part_000`. -/
def infoFlowStep (st : IFState) : Event → IFState
  | .funcDecl id =>
      let name := id.getD "anonymous"
      { register name st with currentFunction := name }
  | .funcExpr id =>
      let name := id.getD "anonymous_expr"
      { register name st with currentFunction := name }
  | .arrowFn start =>
      let name := "arrow@" ++ toString start
      { register name st with currentFunction := name }
  | .callExpr none => st
  | .callExpr (some callee) =>
      let st1 := register callee st
      { st1 with
        fanOut := fun k =>
          if k = st1.currentFunction then insert callee (st1.fanOut st1.currentFunction)
          else st1.fanOut k
        fanIn := fun k =>
          if k = callee then insert st1.currentFunction (st1.fanIn callee)
          else st1.fanIn k }
  | _ => st

/-- `infoFlow` of `src/unnamed/part_000`. -/
def infoFlow (prog : Program) : IFSummary :=
  let st := (programEvents prog).foldl infoFlowStep
    (register "GLOBAL" ⟨[], fun _ => ∅, fun _ => ∅, "GLOBAL"⟩)
  let entries := st.names.filter (fun n => n ≠ "GLOBAL")
  let functionCount := entries.length
  let totalFanIn := (entries.map (fun n => (st.fanIn n).card)).sum
  let totalFanOut := (entries.map (fun n => (st.fanOut n).card)).sum
  let totalInfoFlow := (entries.map (fun n => (st.fanIn n).card * (st.fanOut n).card)).sum
  { functionCount := functionCount
    totalFanIn := totalFanIn
    totalFanOut := totalFanOut
    avgFanIn := if functionCount = 0 then 0 else (totalFanIn : ℚ) / (functionCount : ℚ)
    avgFanOut := if functionCount = 0 then 0 else (totalFanOut : ℚ) / (functionCount : ℚ)
    totalInfoFlow := totalInfoFlow
    grandTotal := totalFanIn + totalFanOut + totalInfoFlow }

/-- One visitor step of the declared/used-variable walk of
`src/unnamed/part_000`. -/
def liveVarsStep (acc : Finset String × Finset String) : Event → Finset String × Finset String
  | .varDeclarator idName => (insert idName acc.1, acc.2)
  | .identifier name => (acc.1, insert name acc.2)
  | _ => acc

/-- `liveVariableStats` of `src/unnamed/part_000`. -/
def liveVariableStats (prog : Program) (loc : Nat) : LiveVarsResult :=
  let acc := (programEvents prog).foldl liveVarsStep (∅, ∅)
  { declared := acc.1.card
    live := (acc.1.filter (fun v => v ∈ acc.2)).card
    loc := loc }

/-- `dispersion` of `src/unnamed/part_000` (same `NaN`-on-empty behavior). -/
def dispersion (arr : List ℚ) : Option DispersionResult :=
  if arr.length = 0 then none
  else
    let mean := arr.sum / (arr.length : ℚ)
    let variance := (arr.map (fun b => (b - mean) ^ 2)).sum / (arr.length : ℚ)
    some { mean := mean, variance := variance }

/-- The Maintainability Index of `src/unnamed/part_000`:
`5.2*ln(volume || 1) + 0.23*cc + 16.2*ln(totalLOC || 1) - 171` — the
negated sign convention compared to `src/tool.js`. -/
noncomputable def MI (volume : ℝ) (ccTotal : Nat) (totalLOC : Nat) : ℝ :=
  5.2 * Real.log (if volume = 0 then 1 else volume)
    + 0.23 * (ccTotal : ℝ)
    + 16.2 * Real.log (if totalLOC = 0 then 1 else (totalLOC : ℝ))
    - 171

end Part0

/-! ## The aggregating main loop of `src/tool.js`

One candidate file as the loop sees it: whether its name ends in `.js`,
its raw text, and the result of `acorn.parse` (`none` models the parse
throwing, i.e. the `catch` branch).  The parser itself is an external
collaborator. -/

structure SrcFile where
  isJs : Bool
  text : String
  parsed : Option Program

/-- The mutable aggregate totals of the main loop of `src/tool.js`. -/
structure Agg where
  locArr : List Nat
  ccTotal : Nat
  hN1 : Nat
  hN2 : Nat
  hn1 : Nat
  hn2 : Nat
  hVolume : ℝ
  hEffort : ℝ
  hTime : ℝ
  hBugs : ℝ
  ifFunctionCount : Nat
  ifTotalFanIn : Nat
  ifTotalFanOut : Nat
  ifTotalInfoFlow : Nat
  ifGrandTotal : Nat
  totalVarsDeclared : Nat
  totalLiveVars : Nat
  maxLiveVars : Nat
  totalLOCForLive : Nat
  liveFileCount : Nat

namespace ToolJs

/-- Zero-initialized aggregate, as declared before the loop. -/
noncomputable def initAgg : Agg :=
  { locArr := [], ccTotal := 0, hN1 := 0, hN2 := 0, hn1 := 0, hn2 := 0
    hVolume := 0, hEffort := 0, hTime := 0, hBugs := 0
    ifFunctionCount := 0, ifTotalFanIn := 0, ifTotalFanOut := 0
    ifTotalInfoFlow := 0, ifGrandTotal := 0
    totalVarsDeclared := 0, totalLiveVars := 0, maxLiveVars := 0
    totalLOCForLive := 0, liveFileCount := 0 }

/-- One iteration of the `for (const file of files)` loop of `src/tool.js`:
the line counts are pushed unconditionally; only `.js` files are parsed; a
parse failure (`catch`) leaves every tree-derived total untouched and the
loop moves on. -/
noncomputable def processFile (st : Agg) (f : SrcFile) : Agg :=
  let loc := locMetrics f.text
  let st1 := { st with locArr := st.locArr ++ [loc.code] }
  if f.isJs then
    match f.parsed with
    | some ast =>
        let h := halstead ast
        let ifm := infoFlow ast
        let lv := liveVariableStats ast loc.code
        { st1 with
          hN1 := st1.hN1 + h.N1
          hN2 := st1.hN2 + h.N2
          hn1 := st1.hn1 + h.n1
          hn2 := st1.hn2 + h.n2
          hVolume := st1.hVolume + h.volume
          hEffort := st1.hEffort + h.effort
          hTime := st1.hTime + h.time
          hBugs := st1.hBugs + h.bugs
          ccTotal := st1.ccTotal + cyclomatic ast
          ifFunctionCount := st1.ifFunctionCount + ifm.functionCount
          ifTotalFanIn := st1.ifTotalFanIn + ifm.totalFanIn
          ifTotalFanOut := st1.ifTotalFanOut + ifm.totalFanOut
          ifTotalInfoFlow := st1.ifTotalInfoFlow + ifm.totalInfoFlow
          ifGrandTotal := st1.ifGrandTotal + ifm.grandTotal
          totalVarsDeclared := st1.totalVarsDeclared + lv.declared
          totalLiveVars := st1.totalLiveVars + lv.live
          maxLiveVars := max st1.maxLiveVars lv.live
          totalLOCForLive := st1.totalLOCForLive + lv.loc
          liveFileCount := st1.liveFileCount + 1 }
    | none => st1
  else st1

/-- The part of the final report of `src/tool.js` that the claims are
about: file count, LOC total, the per-file code-line list fed to
`dispersion`, the dispersion result, and the Maintainability Index. -/
structure Report where
  filesAnalyzed : Nat
  totalLOC : Nat
  locArr : List Nat
  disp : Option DispersionResult
  maintainability : ℝ

/-- The whole run of `src/tool.js` after the file list is fixed: fold the
loop body over the files, then derive the aggregate report. -/
noncomputable def runTool (files : List SrcFile) : Report :=
  let agg := files.foldl processFile initAgg
  let totalLOC := agg.locArr.sum
  { filesAnalyzed := files.length
    totalLOC := totalLOC
    locArr := agg.locArr
    disp := dispersion (agg.locArr.map (fun k => (k : ℚ)))
    maintainability := MI agg.hVolume agg.ccTotal totalLOC }

end ToolJs

/-! ## Spec-side auxiliary definitions (written from the claims' words) -/

/-- Modelled from the spec: the Maintainability Index formula
`5.2·ln(max(totalVolume,1)) + 0.23·totalCyclomatic + 16.2·ln(max(totalCodeLines,1)) − 171`. -/
noncomputable def miSpec (volume : ℝ) (ccTotal totalLOC : Nat) : ℝ :=
  5.2 * Real.log (max volume 1) + 0.23 * (ccTotal : ℝ)
    + 16.2 * Real.log (max (totalLOC : ℝ) 1) - 171

/-- The decision-point constructs of claim C7: conditional statements, the
two counted loop forms, `&&`/`||` logical combinations, and inline
conditional expressions. -/
def isDecisionEvent : Event → Bool
  | .ifStmt => true
  | .forStmt => true
  | .whileStmt => true
  | .conditional => true
  | .logicalOp op => op == "&&" || op == "||"
  | _ => false

/-- Number of decision points in a tree (claim C7's enumeration). -/
def decisionCount (prog : Program) : Nat :=
  (programEvents prog).countP isDecisionEvent

/-- `true` exactly for call-expression events whose callee is a simple
resolvable name. -/
def isResolvableCall : Event → Bool
  | .callExpr (some _) => true
  | _ => false

/-- Number of call expressions in the tree whose callee is a simple
resolvable name (claim C1's call-site count). -/
def resolvableCallCount (prog : Program) : Nat :=
  (programEvents prog).countP isResolvableCall

/-- Reference fold computing the set of attributed call edges
`(current scope, callee)` alongside the same scope-marker discipline as the
analyzer (first component: current scope; second: edge set). -/
def edgeStep (es : String × Finset (String × String)) : Event → String × Finset (String × String)
  | .funcDecl id => (id.getD "anonymous", es.2)
  | .funcExpr id => (id.getD "anonymous_expr", es.2)
  | .arrowFn start => ("arrow@" ++ toString start, es.2)
  | .callExpr (some callee) => (es.1, insert (es.1, callee) es.2)
  | _ => es

/-- The set of distinct attributed call edges of a program. -/
def infoEdges (prog : Program) : Finset (String × String) :=
  ((programEvents prog).foldl edgeStep ("GLOBAL", ∅)).2

/-- Sum of fan-in set sizes over all registered functions, the GLOBAL
pseudo-function included. -/
def totalFanInAll (prog : Program) : Nat :=
  ((ToolJs.infoFlowState prog).names.map
    (fun n => ((ToolJs.infoFlowState prog).fanIn n).card)).sum

/-- Sum of fan-out set sizes over all registered functions, the GLOBAL
pseudo-function included. -/
def totalFanOutAll (prog : Program) : Nat :=
  ((ToolJs.infoFlowState prog).names.map
    (fun n => ((ToolJs.infoFlowState prog).fanOut n).card)).sum

/-- Invariant tying the analyzer state to the parallel edge fold: the
registered names are unique, the current scope is registered and agrees
with the edge fold's scope marker, the fan-out and fan-in sets record
exactly the attributed edges, unregistered names have empty sets, and both
set-size sums count the distinct edges. -/
def IFInvariant (st : IFState) (es : String × Finset (String × String)) : Prop :=
  st.names.Nodup ∧
  st.currentFunction ∈ st.names ∧
  st.currentFunction = es.1 ∧
  (∀ c d : String, (c, d) ∈ es.2 ↔ d ∈ st.fanOut c) ∧
  (∀ c d : String, (c, d) ∈ es.2 ↔ c ∈ st.fanIn d) ∧
  (∀ k : String, k ∉ st.names → st.fanOut k = ∅ ∧ st.fanIn k = ∅) ∧
  (st.names.map (fun n => (st.fanOut n).card)).sum = es.2.card ∧
  (st.names.map (fun n => (st.fanIn n).card)).sum = es.2.card

/-! ## Concrete witness programs -/

/-- Syntax tree of the file `function a(){ b(); } function b(){}` of the C2
scenario. -/
def demoAB : Program :=
  [Stmt.funcDecl (some "a") [] [Stmt.exprStmt (Expr.call (Expr.ident "b") [])],
   Stmt.funcDecl (some "b") [] []]

/-- Syntax tree of a file consisting of the single top-level call `b();`. -/
def demoGlobalCall : Program :=
  [Stmt.exprStmt (Expr.call (Expr.ident "b") [])]

/-- Syntax tree of a file consisting of the single expression statement
`x;` — one operand occurrence, no operators. -/
def demoSingleIdent : Program :=
  [Stmt.exprStmt (Expr.ident "x")]

/-- Syntax tree of a file consisting of two identical top-level calls
`b(); b();` — two resolvable call sites producing a single distinct edge. -/
def demoDoubleCall : Program :=
  [Stmt.exprStmt (Expr.call (Expr.ident "b") []),
   Stmt.exprStmt (Expr.call (Expr.ident "b") [])]

/-- A `.js` candidate file whose parse fails (`acorn.parse` throws on the
text `function (`). -/
def badJsFile : SrcFile :=
  { isJs := true, text := "function (", parsed := none }

/-- A `.js` candidate file that parses to the C2 scenario tree. -/
def goodJsFile : SrcFile :=
  { isJs := true, text := "function a(){ b(); } function b(){}", parsed := some demoAB }

/-- Aggregate Halstead volume of a list of successfully parsed programs, as
summed by the main loops (`totalHalstead.volume += h.volume`). -/
noncomputable def totalVolume (progs : List Program) : ℝ :=
  (progs.map (fun p => (ToolJs.halstead p).volume)).sum

/-! ## Helper lemmas -/

/-- Counting two mutually exclusive predicates never exceeds the length. -/
theorem countP_add_countP_le_length {α : Type} (l : List α) (p q : α → Bool)
    (h : ∀ a, p a = true → q a = false) :
    l.countP p + l.countP q ≤ l.length := by
  induction l with
  | nil => simp
  | cons a t ih =>
      rw [List.countP_cons, List.countP_cons, List.length_cons]
      cases hp : p a with
      | true => have hq := h a hp; simp [hp, hq]; omega
      | false => cases hq : q a <;> simp [hp, hq] <;> omega

/-- In `locMetrics`, the blank and comment counts together never exceed the
number of lines (each line is classified at most once). -/
theorem locMetrics_blank_comment_le (s : String) :
    (ToolJs.locMetrics s).blank + (ToolJs.locMetrics s).comment ≤ (ToolJs.locMetrics s).total := by
  have h := countP_add_countP_le_length (s.splitOn "\n")
    (fun l => l.trim == "")
    (fun l => !(l.trim == "") &&
      (l.trim.startsWith "//" || l.trim.startsWith "/*" || l.trim.startsWith "*"))
    (by intro a ha; simp [ha])
  simpa [ToolJs.locMetrics] using h

/-- The cyclomatic fold adds exactly the number of decision events to its
starting counter. -/
theorem cyclomatic_foldl_eq (evs : List Event) :
    ∀ c : Nat, evs.foldl ToolJs.cyclomaticStep c = c + evs.countP isDecisionEvent := by
  induction evs with
  | nil => intro c; simp
  | cons e es ih =>
      intro c
      rw [List.foldl_cons, ih, List.countP_cons]
      have hstep : ToolJs.cyclomaticStep c e = c + (if isDecisionEvent e then 1 else 0) := by
        cases e with
        | logicalOp op =>
            by_cases hop : op = "&&" ∨ op = "||"
            · have hb : (op == "&&" || op == "||") = true := by
                rcases hop with h | h <;> simp [h]
              simp [ToolJs.cyclomaticStep, isDecisionEvent, hop, hb]
            · have h1 : op ≠ "&&" := fun h => hop (Or.inl h)
              have h2 : op ≠ "||" := fun h => hop (Or.inr h)
              simp [ToolJs.cyclomaticStep, isDecisionEvent, hop, h1, h2]
        | _ => simp [ToolJs.cyclomaticStep, isDecisionEvent]
      rw [hstep]
      omega

/-- C7: for every syntax tree, cyclomatic complexity is exactly 1 plus one
increment per conditional statement, per counted loop form (`for`, `while`),
per `&&`/`||` logical combination, and per inline conditional expression —
no other construct affects the count — and is therefore always at least 1. -/
theorem cyclomatic_is_one_plus_decision_points (prog : Program) :
    ToolJs.cyclomatic prog = 1 + decisionCount prog ∧ 1 ≤ ToolJs.cyclomatic prog := by
  have h := cyclomatic_foldl_eq (programEvents prog) 1
  refine ⟨h, ?_⟩
  rw [ToolJs.cyclomatic, h]
  omega

/-- C8: for every input text, including the empty text, the line counts
returned by `locMetrics` satisfy `total = blank + comment + code`. -/
theorem locMetrics_total_eq_blank_add_comment_add_code (s : String) :
    (ToolJs.locMetrics s).total =
      (ToolJs.locMetrics s).blank + (ToolJs.locMetrics s).comment + (ToolJs.locMetrics s).code := by
  have h := locMetrics_blank_comment_le s
  have hc : (ToolJs.locMetrics s).code =
      (ToolJs.locMetrics s).total - (ToolJs.locMetrics s).blank - (ToolJs.locMetrics s).comment := by
    simp [ToolJs.locMetrics]
  omega

/-- C9: the live count of `liveVariableStats` is the cardinality of the
intersection of the declared-name set with the referenced-identifier set,
and hence never exceeds the declared count. -/
theorem liveVariableStats_live_eq_inter_card (prog : Program) (loc : Nat) :
    (ToolJs.liveVariableStats prog loc).live =
      ((ToolJs.liveVarsAcc prog).1 ∩ (ToolJs.liveVarsAcc prog).2).card ∧
    (ToolJs.liveVariableStats prog loc).live ≤ (ToolJs.liveVariableStats prog loc).declared := by
  constructor
  · simp [ToolJs.liveVariableStats, Finset.filter_mem_eq_inter]
  · simp only [ToolJs.liveVariableStats]
    exact Finset.card_filter_le _ _

/-- C4: on a run with zero processed files the dispersion derivation divides
by zero: `arr.reduce(...)/arr.length` is `0/0 = NaN` (modelled `none`), so
the mean, variance and standard deviation are all non-finite, contradicting
the requirement that every derivation return a defined finite value.  Every
other degenerate case is guarded in the code, but `dispersion` is not. -/
theorem dispersion_empty_is_nan :
    ToolJs.dispersion [] = none ∧ (ToolJs.runTool []).disp = none ∧
      ToolJs.dispersionStdDev [] = none :=
  ⟨rfl, rfl, rfl⟩

/-- C10: each of the six metric functions of `src/tool.js` agrees
extensionally with its duplicate of the same name in `src/unnamed/part_000`. -/
theorem duplicated_engines_agree :
    (∀ s : String, ToolJs.locMetrics s = Part0.locMetrics s) ∧
    (∀ prog : Program, ToolJs.halstead prog = Part0.halstead prog) ∧
    (∀ prog : Program, ToolJs.cyclomatic prog = Part0.cyclomatic prog) ∧
    (∀ prog : Program, ToolJs.infoFlow prog = Part0.infoFlow prog) ∧
    (∀ (prog : Program) (loc : Nat),
      ToolJs.liveVariableStats prog loc = Part0.liveVariableStats prog loc) ∧
    (∀ arr : List ℚ, ToolJs.dispersion arr = Part0.dispersion arr) :=
  ⟨fun _ => rfl, fun _ => rfl, fun _ => rfl, fun _ => rfl, fun _ _ => rfl, fun _ => rfl⟩

/-- Distinct-token counts never exceed the running totals in the Halstead
fold (every set insertion is paired with a counter increment). -/
theorem halsteadAcc_card_le (evs : List Event) :
    ∀ acc : HalsteadAcc, acc.operators.card ≤ acc.N1 → acc.operands.card ≤ acc.N2 →
      (evs.foldl ToolJs.halsteadStep acc).operators.card ≤
        (evs.foldl ToolJs.halsteadStep acc).N1 ∧
      (evs.foldl ToolJs.halsteadStep acc).operands.card ≤
        (evs.foldl ToolJs.halsteadStep acc).N2 := by
  induction evs with
  | nil => intro acc h1 h2; exact ⟨h1, h2⟩
  | cons e es ih =>
      intro acc h1 h2
      rw [List.foldl_cons]
      have hstep1 : (ToolJs.halsteadStep acc e).operators.card ≤ (ToolJs.halsteadStep acc e).N1 := by
        cases e <;> simp [ToolJs.halsteadStep] <;>
          first
          | exact h1
          | exact le_trans (Finset.card_insert_le _ _) (by omega)
      have hstep2 : (ToolJs.halsteadStep acc e).operands.card ≤ (ToolJs.halsteadStep acc e).N2 := by
        cases e <;> simp [ToolJs.halsteadStep] <;>
          first
          | exact h2
          | exact le_trans (Finset.card_insert_le _ _) (by omega)
      exact ih _ hstep1 hstep2

/-- Program vocabulary never exceeds program length. -/
theorem halstead_n_le_N (prog : Program) :
    (ToolJs.halstead prog).n ≤ (ToolJs.halstead prog).N := by
  have h := halsteadAcc_card_le (programEvents prog) ⟨∅, ∅, 0, 0⟩ (by simp) (by simp)
  simp only [ToolJs.halstead, ToolJs.halsteadAcc] at h ⊢
  omega

/-- The `volume` field of `halstead`, spelled out. -/
theorem halstead_volume_def (prog : Program) :
    (ToolJs.halstead prog).volume =
      if (ToolJs.halstead prog).n = 0 then 0
      else ((ToolJs.halstead prog).N : ℝ) * Real.logb 2 ((ToolJs.halstead prog).n : ℝ) := rfl

/-- The `difficulty` field of `halstead`, spelled out. -/
theorem halstead_difficulty_def (prog : Program) :
    (ToolJs.halstead prog).difficulty =
      if (ToolJs.halstead prog).n2 = 0 then 0
      else (((ToolJs.halstead prog).n1 : ℝ) / 2) *
        (((ToolJs.halstead prog).N2 : ℝ) / ((ToolJs.halstead prog).n2 : ℝ)) := rfl

/-- The `effort` field of `halstead` is volume times difficulty. -/
theorem halstead_effort_def (prog : Program) :
    (ToolJs.halstead prog).effort =
      (ToolJs.halstead prog).volume * (ToolJs.halstead prog).difficulty := rfl

/-- Halstead volume is never negative. -/
theorem halstead_volume_nonneg (prog : Program) : 0 ≤ (ToolJs.halstead prog).volume := by
  rw [halstead_volume_def]
  split
  · exact le_refl 0
  · rename_i hn
    exact mul_nonneg (Nat.cast_nonneg _)
      (Real.logb_nonneg (by norm_num)
        (by exact_mod_cast Nat.one_le_iff_ne_zero.2 hn))

/-- Halstead difficulty is never negative. -/
theorem halstead_difficulty_nonneg (prog : Program) : 0 ≤ (ToolJs.halstead prog).difficulty := by
  rw [halstead_difficulty_def]
  split
  · exact le_refl 0
  · positivity

/-- Characterization of a zero Halstead volume: the vocabulary has at most
one distinct token (for `n = 1` the code multiplies by `log2(1) = 0`). -/
theorem halstead_volume_zero_iff (prog : Program) :
    (ToolJs.halstead prog).volume = 0 ↔ (ToolJs.halstead prog).n ≤ 1 := by
  rw [halstead_volume_def]
  by_cases h0 : (ToolJs.halstead prog).n = 0
  · simp [h0]
  · simp only [h0, if_false]
    by_cases h1 : (ToolJs.halstead prog).n = 1
    · simp [h1, Real.logb_one]
    · have hn2 : 2 ≤ (ToolJs.halstead prog).n := by omega
      have hN2 : 2 ≤ (ToolJs.halstead prog).N := le_trans hn2 (halstead_n_le_N prog)
      have hpos : (0 : ℝ) < ((ToolJs.halstead prog).N : ℝ) *
          Real.logb 2 ((ToolJs.halstead prog).n : ℝ) := by
        refine mul_pos ?_ (Real.logb_pos (by norm_num) ?_)
        · exact_mod_cast Nat.lt_of_lt_of_le Nat.zero_lt_two hN2
        · exact_mod_cast Nat.lt_of_lt_of_le Nat.one_lt_two hn2
      constructor
      · intro heq; rw [heq] at hpos; exact absurd hpos (lt_irrefl 0)
      · intro hle; omega

/-- C5 counterexample: on the file `x;` the Halstead vocabulary is the
single operand `x` (`n = 1 ≠ 0`), yet the volume is `1 · log2(1) = 0`:
the volume is 0 while the vocabulary is nonempty, so "volume is 0 iff the
combined vocabulary is empty" is false. -/
theorem halstead_volume_zero_nonempty_vocab :
    (ToolJs.halstead demoSingleIdent).volume = 0 ∧ (ToolJs.halstead demoSingleIdent).n ≠ 0 := by
  constructor
  · rw [halstead_volume_def]
    have hn : (ToolJs.halstead demoSingleIdent).n = 1 := by decide
    rw [hn]
    norm_num [Real.logb_one]
  · have hn : (ToolJs.halstead demoSingleIdent).n = 1 := by decide
    omega

/-- C5 (amended): for every syntax tree, the Halstead volume is 0 if and
only if the combined operator+operand vocabulary has at most one distinct
token (`n ≤ 1`, not only `n = 0`), and the Halstead effort is always ≥ 0. -/
theorem halstead_volume_zero_iff_vocab_le_one (prog : Program) :
    ((ToolJs.halstead prog).volume = 0 ↔ (ToolJs.halstead prog).n ≤ 1) ∧
      0 ≤ (ToolJs.halstead prog).effort := by
  refine ⟨halstead_volume_zero_iff prog, ?_⟩
  rw [halstead_effort_def]
  exact mul_nonneg (halstead_volume_nonneg prog) (halstead_difficulty_nonneg prog)

/-- A per-file Halstead volume is either exactly 0 or at least 1 (in fact at
least 2): `N ≥ n ≥ 2` and `log2(n) ≥ 1` whenever the volume is nonzero. -/
theorem halstead_volume_zero_or_one_le (prog : Program) :
    (ToolJs.halstead prog).volume = 0 ∨ 1 ≤ (ToolJs.halstead prog).volume := by
  by_cases h : (ToolJs.halstead prog).n ≤ 1
  · exact Or.inl ((halstead_volume_zero_iff prog).2 h)
  · right
    rw [halstead_volume_def]
    have hn2 : 2 ≤ (ToolJs.halstead prog).n := by omega
    have hn0 : (ToolJs.halstead prog).n ≠ 0 := by omega
    rw [if_neg hn0]
    have hN2 : 2 ≤ (ToolJs.halstead prog).N := le_trans hn2 (halstead_n_le_N prog)
    have hNr : (1 : ℝ) ≤ ((ToolJs.halstead prog).N : ℝ) := by
      have : 1 ≤ (ToolJs.halstead prog).N := by omega
      exact_mod_cast this
    have hnpos : (0 : ℝ) < ((ToolJs.halstead prog).n : ℝ) := by
      have : 0 < (ToolJs.halstead prog).n := by omega
      exact_mod_cast this
    have hlb : (1 : ℝ) ≤ Real.logb 2 ((ToolJs.halstead prog).n : ℝ) := by
      rw [Real.le_logb_iff_rpow_le (by norm_num) hnpos, Real.rpow_one]
      exact_mod_cast hn2
    nlinarith

/-- Aggregate Halstead volumes are nonnegative. -/
theorem totalVolume_nonneg (progs : List Program) : 0 ≤ totalVolume progs := by
  simp only [totalVolume]
  refine List.sum_nonneg ?_
  intro x hx
  rw [List.mem_map] at hx
  obtain ⟨p, _, rfl⟩ := hx
  exact halstead_volume_nonneg p

/-- An aggregate Halstead volume is either exactly 0 or at least 1, so the
`volume || 1` fallback of the code coincides with `max(volume, 1)`. -/
theorem totalVolume_zero_or_one_le (progs : List Program) :
    totalVolume progs = 0 ∨ 1 ≤ totalVolume progs := by
  induction progs with
  | nil => left; simp [totalVolume]
  | cons p ps ih =>
      have hcons : totalVolume (p :: ps) = (ToolJs.halstead p).volume + totalVolume ps := by
        simp [totalVolume]
      have hnn := totalVolume_nonneg ps
      rcases halstead_volume_zero_or_one_le p with h | h
      · rcases ih with h2 | h2
        · left; rw [hcons, h, h2, add_zero]
        · right; rw [hcons, h]; linarith
      · right; rw [hcons]; linarith

/-- On values that are 0 or at least 1, the JS `v || 1` fallback equals
`max(v, 1)`. -/
theorem js_or_one_eq_max (v : ℝ) (h : v = 0 ∨ 1 ≤ v) :
    (if v = 0 then (1 : ℝ) else v) = max v 1 := by
  rcases h with h | h
  · rw [h, if_pos rfl, max_eq_right zero_le_one]
  · have hne : v ≠ 0 := by linarith
    rw [if_neg hne, max_eq_left h]

/-- On a natural number, the JS `k || 1` fallback equals `max(k, 1)`. -/
theorem nat_or_one_eq_max (k : Nat) :
    (if k = 0 then (1 : ℝ) else (k : ℝ)) = max (k : ℝ) 1 := by
  cases k with
  | zero => simp
  | succ m =>
      rw [if_neg (Nat.succ_ne_zero m)]
      have h1 : (1 : ℝ) ≤ ((m + 1 : Nat) : ℝ) := by exact_mod_cast Nat.succ_le_succ (Nat.zero_le m)
      rw [max_eq_left h1]

/-- C3: the emitted Maintainability Index is always the spec's formula
`5.2·ln(max(totalVolume,1)) + 0.23·cc + 16.2·ln(max(totalLOC,1)) − 171` or
its exact negation: `src/unnamed/part_000` computes the formula itself and
`src/tool.js` computes its negation, so on identical aggregate inputs the
two entry points' MI values are negations of each other. -/
theorem MI_matches_spec_formula_up_to_sign :
    (∀ (v : ℝ) (cc loc : Nat), ToolJs.MI v cc loc = - Part0.MI v cc loc) ∧
    (∀ (progs : List Program) (cc loc : Nat),
      Part0.MI (totalVolume progs) cc loc = miSpec (totalVolume progs) cc loc ∧
      ToolJs.MI (totalVolume progs) cc loc = - miSpec (totalVolume progs) cc loc) := by
  constructor
  · intro v cc loc
    simp only [ToolJs.MI, Part0.MI]
    ring
  · intro progs cc loc
    have h1 := js_or_one_eq_max (totalVolume progs) (totalVolume_zero_or_one_le progs)
    have h2 := nat_or_one_eq_max loc
    constructor
    · simp only [Part0.MI, miSpec, h1, h2]
    · simp only [ToolJs.MI, miSpec, h1, h2]
      ring

/-- C2 counterexample: on the syntax tree of
`function a(){ b(); } function b(){}` the analyzer attributes the call
`b()` to `GLOBAL`, not to `a`: the walker fires the `FunctionDeclaration`
visitor only after the function's body has been traversed, so
`currentFunction` is still `GLOBAL` when the `CallExpression` visitor runs.
Hence `a`'s fan-out is `∅` (not `{b}`) and `b`'s fan-in is `{GLOBAL}` (not
`{a}`), refuting the claimed sets. -/
theorem infoFlow_demoAB_attribution :
    (ToolJs.infoFlowState demoAB).fanOut "a" = ∅ ∧
    (ToolJs.infoFlowState demoAB).fanIn "b" = {"GLOBAL"} ∧
    (ToolJs.infoFlowState demoAB).fanOut "a" ≠ {"b"} ∧
    (ToolJs.infoFlowState demoAB).fanIn "b" ≠ {"a"} := by
  refine ⟨by decide, by decide, ?_, ?_⟩
  · intro h
    have hb : "b" ∈ (ToolJs.infoFlowState demoAB).fanOut "a" := by rw [h]; decide
    revert hb; decide
  · intro h
    have ha : "a" ∈ (ToolJs.infoFlowState demoAB).fanIn "b" := by rw [h]; decide
    revert ha; decide

/-- C2 (amended): the scenario file yields function count 2, information
flow 0 for both `a` and `b`, and grand total 1 as claimed, but the call
edge is attributed to the GLOBAL pseudo-function: `a`'s fan-out is `∅`,
`b`'s fan-in is `{GLOBAL}`, so the reported totals are fan-in 1, fan-out 0
(grand total 1 = 1 + 0 + 0). -/
theorem infoFlow_demoAB_summary :
    (ToolJs.infoFlow demoAB).functionCount = 2 ∧
    (ToolJs.infoFlowState demoAB).fanOut "a" = ∅ ∧
    (ToolJs.infoFlowState demoAB).fanIn "b" = {"GLOBAL"} ∧
    ((ToolJs.infoFlowState demoAB).fanIn "a").card *
      ((ToolJs.infoFlowState demoAB).fanOut "a").card = 0 ∧
    ((ToolJs.infoFlowState demoAB).fanIn "b").card *
      ((ToolJs.infoFlowState demoAB).fanOut "b").card = 0 ∧
    (ToolJs.infoFlow demoAB).totalFanIn = 1 ∧
    (ToolJs.infoFlow demoAB).totalFanOut = 0 ∧
    (ToolJs.infoFlow demoAB).totalInfoFlow = 0 ∧
    (ToolJs.infoFlow demoAB).grandTotal = 1 := by
  refine ⟨?_, ?_, ?_, ?_, ?_, ?_, ?_, ?_, ?_⟩ <;> decide

/-- C1 counterexample: for the file `b();` the one resolvable call is
attributed to the GLOBAL pseudo-function, which the summary loop skips, so
the reported fan-in total is 1 while the fan-out total is 0 — the two sums
differ from each other and from the call-site count.  Moreover the sets
deduplicate repeated calls: for the file `b(); b();` there are two
resolvable call sites but (even counting GLOBAL) only one recorded edge. -/
theorem infoFlow_fan_totals_imbalance :
    (ToolJs.infoFlow demoGlobalCall).totalFanIn = 1 ∧
    (ToolJs.infoFlow demoGlobalCall).totalFanOut = 0 ∧
    resolvableCallCount demoGlobalCall = 1 ∧
    (ToolJs.infoFlow demoGlobalCall).totalFanIn ≠ (ToolJs.infoFlow demoGlobalCall).totalFanOut ∧
    resolvableCallCount demoDoubleCall = 2 ∧
    totalFanInAll demoDoubleCall = 1 := by
  refine ⟨?_, ?_, ?_, ?_, ?_, ?_⟩ <;> decide

/-- Summing a pointwise-updated function over a duplicate-free list changes
the sum by exactly the difference at the updated key. -/
theorem sum_map_pointwise_update (l : List String) (f : String → Nat) (k : String) (v : Nat)
    (hnd : l.Nodup) (hk : k ∈ l) :
    (l.map (fun n => if n = k then v else f n)).sum + f k = (l.map f).sum + v := by
  induction l with
  | nil => cases hk
  | cons a t ih =>
      rw [List.map_cons, List.map_cons, List.sum_cons, List.sum_cons]
      rcases List.mem_cons.1 hk with hka | hkt
      · rw [hka]
        have ht : ∀ n ∈ t, (if n = a then v else f n) = f n := by
          intro n hn
          have hna : n ≠ a := fun h => (List.nodup_cons.1 hnd).1 (h ▸ hn)
          rw [if_neg hna]
        rw [if_pos rfl, List.map_congr_left ht]
        omega
      · have ha : a ≠ k := fun h => (List.nodup_cons.1 hnd).1 (h.symm ▸ hkt)
        have := ih (List.nodup_cons.1 hnd).2 hkt
        rw [if_neg ha]
        omega

/-- `registerFunction` preserves the invariant, registers its argument,
keeps the current scope, and leaves the fan-in/fan-out sets of every name
unchanged (the fresh entry's sets are empty, as they already were for an
unregistered name). -/
theorem registerFunction_invariant (name : String) (st : IFState)
    (es : String × Finset (String × String)) (h : IFInvariant st es) :
    IFInvariant (ToolJs.registerFunction name st) es ∧
    name ∈ (ToolJs.registerFunction name st).names ∧
    (ToolJs.registerFunction name st).currentFunction = st.currentFunction ∧
    (∀ c, (ToolJs.registerFunction name st).fanOut c = st.fanOut c) ∧
    (∀ c, (ToolJs.registerFunction name st).fanIn c = st.fanIn c) := by
  obtain ⟨hnd, hcur, hcures, hout, hin, hemp, hso, hsi⟩ := h
  by_cases hmem : name ∈ st.names
  · rw [ToolJs.registerFunction, if_pos hmem]
    exact ⟨⟨hnd, hcur, hcures, hout, hin, hemp, hso, hsi⟩, hmem, rfl, fun _ => rfl, fun _ => rfl⟩
  · rw [ToolJs.registerFunction, if_neg hmem]
    have hfo : ∀ c, (if c = name then (∅ : Finset String) else st.fanOut c) = st.fanOut c := by
      intro c
      by_cases hc : c = name
      · rw [hc, if_pos rfl, (hemp name hmem).1]
      · rw [if_neg hc]
    have hfi : ∀ c, (if c = name then (∅ : Finset String) else st.fanIn c) = st.fanIn c := by
      intro c
      by_cases hc : c = name
      · rw [hc, if_pos rfl, (hemp name hmem).2]
      · rw [if_neg hc]
    refine ⟨⟨?_, ?_, hcures, ?_, ?_, ?_, ?_, ?_⟩, ?_, rfl, hfo, hfi⟩
    · show (st.names ++ [name]).Nodup
      rw [List.nodup_append]
      refine ⟨hnd, List.nodup_singleton name, ?_⟩
      intro x hx hy
      rw [List.mem_singleton] at hy
      exact hmem (hy ▸ hx)
    · exact List.mem_append_left _ hcur
    · intro c d
      show (c, d) ∈ es.2 ↔ d ∈ (if c = name then (∅ : Finset String) else st.fanOut c)
      rw [hfo c]
      exact hout c d
    · intro c d
      show (c, d) ∈ es.2 ↔ c ∈ (if d = name then (∅ : Finset String) else st.fanIn d)
      rw [hfi d]
      exact hin c d
    · intro k hk
      have hk1 : k ∉ st.names := fun hx => hk (List.mem_append_left _ hx)
      exact ⟨(hfo k).trans (hemp k hk1).1, (hfi k).trans (hemp k hk1).2⟩
    · show (List.map (fun n => (if n = name then (∅ : Finset String) else st.fanOut n).card)
        (st.names ++ [name])).sum = es.2.card
      rw [List.map_append, List.sum_append,
        List.map_congr_left (fun n _ => congrArg Finset.card (hfo n))]
      simp [hso]
    · show (List.map (fun n => (if n = name then (∅ : Finset String) else st.fanIn n).card)
        (st.names ++ [name])).sum = es.2.card
      rw [List.map_append, List.sum_append,
        List.map_congr_left (fun n _ => congrArg Finset.card (hfi n))]
      simp [hsi]
    · exact List.mem_append_right _ (List.mem_singleton.2 rfl)

/-- Entering a function construct (in post-order: finishing it) only
reassigns the current-scope marker to the newly registered name; edges and
sums are untouched. -/
theorem scope_switch_invariant (name : String) (st : IFState)
    (es : String × Finset (String × String)) (h : IFInvariant st es) :
    IFInvariant { ToolJs.registerFunction name st with currentFunction := name } (name, es.2) := by
  obtain ⟨hreg, hn, -, -, -⟩ := registerFunction_invariant name st es h
  obtain ⟨rnd, -, -, rout, rin, remp, rso, rsi⟩ := hreg
  exact ⟨rnd, hn, rfl, rout, rin, remp, rso, rsi⟩

/-- A resolvable call preserves the invariant: the callee is registered,
the edge `(current scope, callee)` is added to the current scope's fan-out
and the callee's fan-in, and both sums track the distinct-edge count. -/
theorem call_step_invariant (d : String) (st : IFState)
    (es : String × Finset (String × String)) (h : IFInvariant st es) :
    IFInvariant (ToolJs.infoFlowStep st (Event.callExpr (some d)))
      (edgeStep es (Event.callExpr (some d))) := by
  simp only [ToolJs.infoFlowStep, edgeStep]
  obtain ⟨hreg, hdmem, -, -, -⟩ := registerFunction_invariant d st es h
  set st1 := ToolJs.registerFunction d st with hst1
  obtain ⟨rnd, rcur, rcures, rout, rin, remp, rso, rsi⟩ := hreg
  refine ⟨rnd, rcur, rcures, ?_, ?_, ?_, ?_, ?_⟩
  · intro c e0
    show (c, e0) ∈ insert (es.1, d) es.2 ↔
      e0 ∈ (if c = st1.currentFunction
        then insert d (st1.fanOut st1.currentFunction) else st1.fanOut c)
    rw [Finset.mem_insert]
    by_cases hc : c = st1.currentFunction
    · rw [if_pos hc, hc, rcures, Finset.mem_insert]
      simp only [Prod.mk.injEq, true_and]
      exact or_congr Iff.rfl (rout es.1 e0)
    · rw [if_neg hc]
      have hne : ¬ ((c, e0) = (es.1, d)) := by
        intro hp
        exact hc ((Prod.ext_iff.1 hp).1.trans rcures.symm)
      rw [or_iff_right hne]
      exact rout c e0
  · intro c e0
    show (c, e0) ∈ insert (es.1, d) es.2 ↔
      c ∈ (if e0 = d then insert st1.currentFunction (st1.fanIn d) else st1.fanIn e0)
    rw [Finset.mem_insert]
    by_cases he : e0 = d
    · rw [if_pos he, he, Finset.mem_insert]
      simp only [Prod.mk.injEq, and_true]
      rw [rcures]
      exact or_congr Iff.rfl (rin c d)
    · rw [if_neg he]
      have hne : ¬ ((c, e0) = (es.1, d)) := fun hp => he (Prod.ext_iff.1 hp).2
      rw [or_iff_right hne]
      exact rin c e0
  · intro k hk
    have hkc : k ≠ st1.currentFunction := fun hx => hk (hx ▸ rcur)
    have hkd : k ≠ d := fun hx => hk (hx ▸ hdmem)
    constructor
    · show (if k = st1.currentFunction
        then insert d (st1.fanOut st1.currentFunction) else st1.fanOut k) = ∅
      rw [if_neg hkc]
      exact (remp k hk).1
    · show (if k = d then insert st1.currentFunction (st1.fanIn d) else st1.fanIn k) = ∅
      rw [if_neg hkd]
      exact (remp k hk).2
  · show (List.map (fun n => (if n = st1.currentFunction
        then insert d (st1.fanOut st1.currentFunction) else st1.fanOut n).card)
      st1.names).sum = (insert (es.1, d) es.2).card
    by_cases hedge : (es.1, d) ∈ es.2
    · have hd : d ∈ st1.fanOut st1.currentFunction := by
        rw [rcures]
        exact (rout es.1 d).1 hedge
      have hins : insert d (st1.fanOut st1.currentFunction) = st1.fanOut st1.currentFunction :=
        Finset.insert_eq_self.2 hd
      have hcong : ∀ n ∈ st1.names,
          (if n = st1.currentFunction
            then insert d (st1.fanOut st1.currentFunction) else st1.fanOut n).card =
          (st1.fanOut n).card := by
        intro n hn
        by_cases hnc : n = st1.currentFunction
        · rw [if_pos hnc, hins, hnc]
        · rw [if_neg hnc]
      rw [Finset.insert_eq_self.2 hedge, List.map_congr_left hcong]
      exact rso
    · have hd : d ∉ st1.fanOut st1.currentFunction := by
        rw [rcures]
        intro hx
        exact hedge ((rout es.1 d).2 hx)
      have hcard : (insert d (st1.fanOut st1.currentFunction)).card =
          (st1.fanOut st1.currentFunction).card + 1 := Finset.card_insert_of_not_mem hd
      have hm : ∀ n ∈ st1.names,
          (if n = st1.currentFunction
            then insert d (st1.fanOut st1.currentFunction) else st1.fanOut n).card =
          (if n = st1.currentFunction
            then (st1.fanOut st1.currentFunction).card + 1 else (st1.fanOut n).card) := by
        intro n hn
        by_cases hnc : n = st1.currentFunction
        · rw [if_pos hnc, if_pos hnc]
          exact hcard
        · rw [if_neg hnc, if_neg hnc]
      rw [Finset.card_insert_of_not_mem hedge, List.map_congr_left hm]
      have hupd : (List.map (fun n => if n = st1.currentFunction
            then (st1.fanOut st1.currentFunction).card + 1 else (st1.fanOut n).card)
          st1.names).sum + (st1.fanOut st1.currentFunction).card =
          (List.map (fun n => (st1.fanOut n).card) st1.names).sum +
            ((st1.fanOut st1.currentFunction).card + 1) :=
        sum_map_pointwise_update st1.names (fun n => (st1.fanOut n).card)
          st1.currentFunction ((st1.fanOut st1.currentFunction).card + 1) rnd rcur
      omega
  · show (List.map (fun n => (if n = d
        then insert st1.currentFunction (st1.fanIn d) else st1.fanIn n).card)
      st1.names).sum = (insert (es.1, d) es.2).card
    by_cases hedge : (es.1, d) ∈ es.2
    · have hc : st1.currentFunction ∈ st1.fanIn d := by
        rw [rcures]
        exact (rin es.1 d).1 hedge
      have hins : insert st1.currentFunction (st1.fanIn d) = st1.fanIn d :=
        Finset.insert_eq_self.2 hc
      have hcong : ∀ n ∈ st1.names,
          (if n = d then insert st1.currentFunction (st1.fanIn d) else st1.fanIn n).card =
          (st1.fanIn n).card := by
        intro n hn
        by_cases hnd2 : n = d
        · rw [if_pos hnd2, hins, hnd2]
        · rw [if_neg hnd2]
      rw [Finset.insert_eq_self.2 hedge, List.map_congr_left hcong]
      exact rsi
    · have hc : st1.currentFunction ∉ st1.fanIn d := by
        rw [rcures]
        intro hx
        exact hedge ((rin es.1 d).2 hx)
      have hcard : (insert st1.currentFunction (st1.fanIn d)).card =
          (st1.fanIn d).card + 1 := Finset.card_insert_of_not_mem hc
      have hm : ∀ n ∈ st1.names,
          (if n = d then insert st1.currentFunction (st1.fanIn d) else st1.fanIn n).card =
          (if n = d then (st1.fanIn d).card + 1 else (st1.fanIn n).card) := by
        intro n hn
        by_cases hnd2 : n = d
        · rw [if_pos hnd2, if_pos hnd2]
          exact hcard
        · rw [if_neg hnd2, if_neg hnd2]
      rw [Finset.card_insert_of_not_mem hedge, List.map_congr_left hm]
      have hupd : (List.map (fun n => if n = d
            then (st1.fanIn d).card + 1 else (st1.fanIn n).card)
          st1.names).sum + (st1.fanIn d).card =
          (List.map (fun n => (st1.fanIn n).card) st1.names).sum +
            ((st1.fanIn d).card + 1) :=
        sum_map_pointwise_update st1.names (fun n => (st1.fanIn n).card)
          d ((st1.fanIn d).card + 1) rnd hdmem
      omega

/-- Every visitor step of the information-flow walk preserves the invariant
against the parallel edge fold. -/
theorem infoFlowStep_invariant (st : IFState) (es : String × Finset (String × String))
    (e : Event) (h : IFInvariant st es) :
    IFInvariant (ToolJs.infoFlowStep st e) (edgeStep es e) := by
  cases e with
  | funcDecl id =>
      simp only [ToolJs.infoFlowStep, edgeStep]
      exact scope_switch_invariant _ _ _ h
  | funcExpr id =>
      simp only [ToolJs.infoFlowStep, edgeStep]
      exact scope_switch_invariant _ _ _ h
  | arrowFn start =>
      simp only [ToolJs.infoFlowStep, edgeStep]
      exact scope_switch_invariant _ _ _ h
  | callExpr cal =>
      cases cal with
      | none => simpa only [ToolJs.infoFlowStep, edgeStep] using h
      | some d => exact call_step_invariant d st es h
  | binaryOp op => simpa only [ToolJs.infoFlowStep, edgeStep] using h
  | logicalOp op => simpa only [ToolJs.infoFlowStep, edgeStep] using h
  | unaryOp op => simpa only [ToolJs.infoFlowStep, edgeStep] using h
  | assignOp op => simpa only [ToolJs.infoFlowStep, edgeStep] using h
  | updateOp op => simpa only [ToolJs.infoFlowStep, edgeStep] using h
  | identifier name => simpa only [ToolJs.infoFlowStep, edgeStep] using h
  | literal value => simpa only [ToolJs.infoFlowStep, edgeStep] using h
  | ifStmt => simpa only [ToolJs.infoFlowStep, edgeStep] using h
  | forStmt => simpa only [ToolJs.infoFlowStep, edgeStep] using h
  | whileStmt => simpa only [ToolJs.infoFlowStep, edgeStep] using h
  | conditional => simpa only [ToolJs.infoFlowStep, edgeStep] using h
  | varDeclarator idName => simpa only [ToolJs.infoFlowStep, edgeStep] using h

/-- The invariant is preserved by folding any event sequence. -/
theorem infoFlow_fold_invariant (evs : List Event) :
    ∀ (st : IFState) (es : String × Finset (String × String)), IFInvariant st es →
      IFInvariant (evs.foldl ToolJs.infoFlowStep st) (evs.foldl edgeStep es) := by
  induction evs with
  | nil => intro st es h; exact h
  | cons e rest ih =>
      intro st es h
      rw [List.foldl_cons, List.foldl_cons]
      exact ih _ _ (infoFlowStep_invariant st es e h)

/-- The initial analyzer state satisfies the invariant against the empty
edge set with current scope `GLOBAL`. -/
theorem initIFState_invariant : IFInvariant ToolJs.initIFState ("GLOBAL", ∅) := by
  rw [ToolJs.initIFState, ToolJs.registerFunction]
  rw [if_neg (List.not_mem_nil "GLOBAL")]
  refine ⟨?_, ?_, rfl, ?_, ?_, ?_, ?_, ?_⟩
  · exact List.nodup_singleton "GLOBAL"
  · show "GLOBAL" ∈ [] ++ ["GLOBAL"]
    exact List.mem_append_right _ (List.mem_singleton.2 rfl)
  · intro c d
    constructor
    · intro hx
      exact absurd hx (Finset.not_mem_empty _)
    · intro hx
      have : d ∈ (if c = "GLOBAL" then (∅ : Finset String) else ∅) := hx
      revert this
      split <;> exact fun hx2 => absurd hx2 (Finset.not_mem_empty _)
  · intro c d
    constructor
    · intro hx
      exact absurd hx (Finset.not_mem_empty _)
    · intro hx
      have : c ∈ (if d = "GLOBAL" then (∅ : Finset String) else ∅) := hx
      revert this
      split <;> exact fun hx2 => absurd hx2 (Finset.not_mem_empty _)
  · intro k hk
    constructor
    · show (if k = "GLOBAL" then (∅ : Finset String) else ∅) = ∅
      split <;> rfl
    · show (if k = "GLOBAL" then (∅ : Finset String) else ∅) = ∅
      split <;> rfl
  · show (List.map (fun n => (if n = "GLOBAL" then (∅ : Finset String) else ∅).card)
      ([] ++ ["GLOBAL"])).sum = (∅ : Finset (String × String)).card
    simp
  · show (List.map (fun n => (if n = "GLOBAL" then (∅ : Finset String) else ∅).card)
      ([] ++ ["GLOBAL"])).sum = (∅ : Finset (String × String)).card
    simp

/-- C1 (amended): with the GLOBAL pseudo-function's sets included, the sum
of fan-in set sizes equals the sum of fan-out set sizes, and both equal the
number of *distinct* attributed `(caller, callee)` edges — not the raw
count of resolvable call sites (the reported totals exclude GLOBAL and the
sets deduplicate repeated calls, which is what the counterexample
exploits). -/
theorem infoFlow_edge_balance (prog : Program) :
    totalFanInAll prog = totalFanOutAll prog ∧
    totalFanOutAll prog = (infoEdges prog).card := by
  have h := infoFlow_fold_invariant (programEvents prog) ToolJs.initIFState ("GLOBAL", ∅)
    initIFState_invariant
  obtain ⟨-, -, -, -, -, -, hso, hsi⟩ := h
  constructor
  · rw [totalFanInAll, totalFanOutAll, ToolJs.infoFlowState]
    rw [hsi, hso]
  · rw [totalFanOutAll, ToolJs.infoFlowState, infoEdges]
    exact hso

/-- The per-file code-line list accumulated by the main loop is exactly the
map of `locMetrics(..).code` over all processed files, whether or not they
were parsable (`locArr.push(loc.code)` runs before the parse attempt). -/
theorem foldl_processFile_locArr (files : List SrcFile) :
    ∀ st : Agg, (files.foldl ToolJs.processFile st).locArr =
      st.locArr ++ files.map (fun g => (ToolJs.locMetrics g.text).code) := by
  induction files with
  | nil => intro st; simp
  | cons f rest ih =>
      intro st
      rw [List.foldl_cons, ih, List.map_cons]
      have hstep : (ToolJs.processFile st f).locArr =
          st.locArr ++ [(ToolJs.locMetrics f.text).code] := by
        cases hjs : f.isJs
        · simp [ToolJs.processFile, hjs]
        · cases hp : f.parsed <;> simp [ToolJs.processFile, hjs, hp]
      rw [hstep]
      simp

/-- C6: a `.js` file whose parse fails still has its line counts appended
to the aggregate (hence to the LOC total and the dispersion list) and is
counted in the file total, while every tree-derived total (Halstead,
cyclomatic, information flow, variables) is left exactly as it was; the
fold then continues over the remaining files instead of aborting, so a run
containing the bad file still maps every file — including those after it —
into the final code-line list. -/
theorem unparsable_file_only_counts_loc (st : Agg) (f : SrcFile)
    (pre post : List SrcFile) (hjs : f.isJs = true) (hp : f.parsed = none) :
    ToolJs.processFile st f =
      { st with locArr := st.locArr ++ [(ToolJs.locMetrics f.text).code] } ∧
    (ToolJs.runTool (pre ++ f :: post)).filesAnalyzed = pre.length + 1 + post.length ∧
    (ToolJs.runTool (pre ++ f :: post)).locArr =
      (pre ++ f :: post).map (fun g => (ToolJs.locMetrics g.text).code) ∧
    (ToolJs.runTool (pre ++ f :: post)).totalLOC =
      ((pre ++ f :: post).map (fun g => (ToolJs.locMetrics g.text).code)).sum := by
  refine ⟨?_, ?_, ?_, ?_⟩
  · simp [ToolJs.processFile, hjs, hp]
  · show (pre ++ f :: post).length = pre.length + 1 + post.length
    rw [List.length_append, List.length_cons]
    omega
  · show ((pre ++ f :: post).foldl ToolJs.processFile ToolJs.initAgg).locArr =
      (pre ++ f :: post).map (fun g => (ToolJs.locMetrics g.text).code)
    rw [foldl_processFile_locArr, ToolJs.initAgg]
    simp
  · show ((pre ++ f :: post).foldl ToolJs.processFile ToolJs.initAgg).locArr.sum =
      ((pre ++ f :: post).map (fun g => (ToolJs.locMetrics g.text).code)).sum
    rw [foldl_processFile_locArr, ToolJs.initAgg]
    simp

/-- Concrete instance of the unparsable-file behavior: a run over the bad
file followed by a good file counts both files, appends both line counts,
and the bad file changes nothing but the line-count list. -/
theorem unparsable_file_only_counts_loc_witness :
    badJsFile.isJs = true ∧ badJsFile.parsed = none ∧
    (ToolJs.processFile ToolJs.initAgg badJsFile =
      { ToolJs.initAgg with
        locArr := ToolJs.initAgg.locArr ++ [(ToolJs.locMetrics badJsFile.text).code] } ∧
    (ToolJs.runTool (([] : List SrcFile) ++ badJsFile :: [goodJsFile])).filesAnalyzed =
      List.length ([] : List SrcFile) + 1 + List.length [goodJsFile] ∧
    (ToolJs.runTool (([] : List SrcFile) ++ badJsFile :: [goodJsFile])).locArr =
      (([] : List SrcFile) ++ badJsFile :: [goodJsFile]).map (fun g => (ToolJs.locMetrics g.text).code) ∧
    (ToolJs.runTool (([] : List SrcFile) ++ badJsFile :: [goodJsFile])).totalLOC =
      ((([] : List SrcFile) ++ badJsFile :: [goodJsFile]).map (fun g => (ToolJs.locMetrics g.text).code)).sum) :=
  ⟨rfl, rfl, unparsable_file_only_counts_loc ToolJs.initAgg badJsFile [] [goodJsFile] rfl rfl⟩
